import Mathlib

/-!
Shallow embedding of the wikipedia-scraper program (src/main.py) and
verification of the specification's claims about it.

The page-loading collaborator (Selenium) is modelled abstractly: a loaded
page is the tuple of query results the program actually asks for, and a
world maps target URLs to the page the loader would produce (or `none`
when navigation fails).  Machine-level concerns (logging, wall-clock
timestamps, the browser) are outside the embedding; timestamps are
threaded as an explicit `now : String` argument.
-/

/-! ## String helpers (Python substring / startswith semantics) -/

/-- Boolean test that the first list starts with the second. -/
def startsWithL : List Char → List Char → Bool
  | _, [] => true
  | [], _ :: _ => false
  | c :: cs, d :: ds => c == d && startsWithL cs ds

/-- Boolean substring containment on char lists (Python `needle in hay`). -/
def hasSub : List Char → List Char → Bool
  | [], needle => needle.isEmpty
  | c :: t, needle => startsWithL (c :: t) needle || hasSub t needle

/-- Python `s.startswith(p)`. -/
def strStarts (s p : String) : Bool := startsWithL s.toList p.toList

/-- Python `needle in hay` on strings. -/
def strHas (hay needle : String) : Bool := hasSub hay.toList needle.toList

/-! ## Python `sep.join` / `split(sep)` semantics -/

/-- Python `sep.join(parts)` on char lists. -/
def pyJoinL (sep : Char) : List (List Char) → List Char
  | [] => []
  | [x] => x
  | x :: y :: rest => x ++ sep :: pyJoinL sep (y :: rest)

/-- Python `s.split(sep)` on char lists: keeps empty pieces, and the
split of the empty string is `[[]]` (one empty piece), as in Python. -/
def pySplitL (sep : Char) : List Char → List (List Char)
  | [] => [[]]
  | c :: cs =>
    match pySplitL sep cs with
    | [] => [[]]
    | w :: ws => if c == sep then [] :: w :: ws else (c :: w) :: ws

/-- Python `"|".join(parts)` as used at src/main.py:167. -/
def pyJoinStr (parts : List String) : String :=
  String.mk (pyJoinL '|' (parts.map String.toList))

/-- Re-splitting an exported categories cell on the pipe delimiter
(the read-back direction of the spec's export round-trip). -/
def pySplitStr (s : String) : List String :=
  (pySplitL '|' s.toList).map String.mk

/-! ## Data model -/

/-- A record as built by the program: a Python dict literal, i.e. an
association list of field name to field value. -/
abbrev ArticleData := List (String × String)

/-- Python dict lookup on a record. -/
def lookupField (r : ArticleData) (k : String) : Option String :=
  (r.find? (fun p => p.1 == k)).map (fun p => p.2)

/-- The keys of a record, in insertion order. -/
def recordKeys (r : ArticleData) : List String := r.map (fun p => p.1)

/-- The six column names of the data model. -/
def sixKeys : List String :=
  ["title", "url", "summary", "categories", "image_url", "date_scraped"]

/-- A record carries exactly the six fields, in order. -/
def hasSixKeys (r : ArticleData) : Prop := recordKeys r = sixKeys

/-- An anchor element inside `#mw-content-text`: its visible text and its
literal `href` attribute (site-relative, as written in the HTML). -/
structure Anchor where
  text : String
  attrHref : String
deriving DecidableEq

/-- A `{text, href}` pair returned by the link harvester. -/
structure WikiLink where
  text : String
  href : String
deriving DecidableEq

/-- A loaded page, modelled as the results of the structural queries
`extract_article_data` and `extract_links_from_article` perform:
`firstHeading` is the text of `#firstHeading` (`none` = lookup times out),
`currentUrl` is `driver.current_url`, `introParagraph` the first
non-empty content paragraph, `categoryLinks` the category-link texts
(`none` = the lookup raises), `infoboxImage` the infobox/thumb image src,
and `contentAnchors` the anchors of `#mw-content-text` (`none` = the
scan raises). -/
structure Page where
  firstHeading : Option String
  currentUrl : String
  introParagraph : Option String
  categoryLinks : Option (List String)
  infoboxImage : Option String
  contentAnchors : Option (List Anchor)
deriving DecidableEq

/-! ## FieldExtractor (src/main.py:132-177) -/

/-- `extract_article_data`: on a missing title returns `None` and appends
nothing; otherwise builds the six-field dict with per-field fallbacks
("Summary not found", `[]` joined with pipes, `""`) and appends it to
`articles_data`, with `date_scraped` set to the extraction instant. -/
def extract_article_data (now : String) (page : Page)
    (articles_data : List ArticleData) : Option ArticleData × List ArticleData :=
  match page.firstHeading with
  | none => (none, articles_data)
  | some title =>
    let url := page.currentUrl
    let summary :=
      match page.introParagraph with
      | some s => s
      | none => "Summary not found"
    let categories :=
      match page.categoryLinks with
      | some cs => cs
      | none => []
    let image_url :=
      match page.infoboxImage with
      | some i => i
      | none => ""
    let article_data : ArticleData :=
      [("title", title), ("url", url), ("summary", summary),
       ("categories", pyJoinStr categories), ("image_url", image_url),
       ("date_scraped", now)]
    (some article_data, articles_data ++ [article_data])

/-! ## LinkHarvester (src/main.py:179-210) -/

/-- Site origin used by the browser to resolve site-relative hrefs. -/
def wikiHost : String := "https://en.wikipedia.org"

/-- Article path prefix of the site. -/
def wikiArticleBase : String := "https://en.wikipedia.org/wiki/"

/-- The CSS selector `a[href^='/wiki/']:not([href*=':'])` applied to an
anchor's literal attribute. -/
def selectorMatches (a : Anchor) : Bool :=
  strStarts a.attrHref "/wiki/" && !strHas a.attrHref ":"

/-- `get_attribute("href")`: the browser resolves a site-relative href
against the site origin. -/
def resolveHref (attr : String) : String := wikiHost ++ attr

/-- The Python-level denylist filter of `extract_links_from_article`
(`if (href and "Special:" not in href and ...)`). -/
def linkAllowed (href : String) : Bool :=
  !href.isEmpty && !strHas href "Special:" && !strHas href "Category:" &&
  !strHas href "File:" && !strHas href "Help:" &&
  !strHas href "Wikipedia:" && !strHas href "Talk:"

/-- The harvesting loop: append each allowed candidate and break as soon
as the accumulated list reaches `max_links` (the break is checked after
the append, src/main.py:203-205). -/
def harvestGo (max_links : Nat) : List Anchor → List WikiLink → List WikiLink
  | [], acc => acc
  | a :: rest, acc =>
    let href := resolveHref a.attrHref
    if linkAllowed href then
      let acc2 := acc ++ [⟨a.text, href⟩]
      if max_links ≤ acc2.length then acc2 else harvestGo max_links rest acc2
    else harvestGo max_links rest acc

/-- `extract_links_from_article`: empty list when the anchor scan raises,
otherwise the harvesting loop over the selector's matches. -/
def extract_links_from_article (page : Page) (max_links : Nat) : List WikiLink :=
  match page.contentAnchors with
  | none => []
  | some anchors => harvestGo max_links (anchors.filter selectorMatches) []

/-! ## PageLoader boundary and CrawlController (src/main.py:88-98, 212-259) -/

/-- The external site: which page (if any) the loader produces for each
target URL. `none` models a navigation failure. -/
structure World where
  pages : String → Option Page

/-- `navigate_to_url`: on success the driver now shows the target's page
and the call returns `True`; on failure the error is logged, the call
returns `False`, and the driver keeps showing the previous page. -/
def navigate_to_url (w : World) (current : Page) (url : String) : Bool × Page :=
  match w.pages url with
  | some p => (true, p)
  | none => (false, current)

/-- The mutable state of one `crawl_related_articles` invocation.
`enqueued` and `loaded` are ghost instrumentation recording, in order,
every URL ever appended to the frontier queue and every URL for which a
navigation was issued inside the loop; they influence nothing. -/
structure CrawlState where
  page : Page
  articles_data : List ArticleData
  visited : List String
  queue : List (String × Nat)
  articles_crawled : Nat
  enqueued : List String
  loaded : List String
deriving DecidableEq

/-- Outcome of one iteration of the crawl loop: either the loop exits
(`done`) or continues from the new state (`next`). -/
inductive StepRes where
  | done (st : CrawlState)
  | next (st : CrawlState)
deriving DecidableEq

/-- One iteration of the `while queue and articles_crawled < max_articles`
loop (src/main.py:229-256): pop the head; skip it when already visited;
otherwise navigate (the returned success flag is ignored by the source),
mark visited, extract from whatever page the driver now shows, increment
the counter, break when the budget is reached, and otherwise enqueue the
not-yet-visited harvested links at depth+1. -/
def crawlStep (w : World) (depth max_articles : Nat) (now : String)
    (st : CrawlState) : StepRes :=
  match st.queue with
  | [] => .done st
  | (current_url, url_depth) :: rest =>
    if max_articles ≤ st.articles_crawled then .done st
    else if current_url ∈ st.visited then .next { st with queue := rest }
    else
      let nav := navigate_to_url w st.page current_url
      let page := nav.2
      let visited2 := current_url :: st.visited
      let data2 := (extract_article_data now page st.articles_data).2
      let crawled2 := st.articles_crawled + 1
      let st2 : CrawlState :=
        { page := page, articles_data := data2, visited := visited2,
          queue := rest, articles_crawled := crawled2,
          enqueued := st.enqueued, loaded := st.loaded ++ [current_url] }
      if max_articles ≤ crawled2 then .done st2
      else if url_depth < depth then
        let links := extract_links_from_article page 10
        let fresh := links.filter (fun l => !(decide (l.href ∈ visited2)))
        .next { st2 with
                queue := rest ++ fresh.map (fun l => (l.href, url_depth + 1)),
                enqueued := st2.enqueued ++ fresh.map (fun l => l.href) }
      else .next st2

/-- Step-indexed iteration of the crawl loop. -/
def crawlLoopFuel (w : World) (depth max_articles : Nat) (now : String) :
    Nat → CrawlState → CrawlState
  | 0, st => st
  | fuel + 1, st =>
    match crawlStep w depth max_articles now st with
    | .done st2 => st2
    | .next st2 => crawlLoopFuel w depth max_articles now fuel st2

/-- `crawl_related_articles`: fails fast when the current URL is not an
article path; otherwise marks the start URL visited, extracts the seed
record, seeds the frontier with `(start_url, 0)` and runs the loop.
Fuel 2 is exact: the seed entry is popped and skipped as already visited
and the frontier is then empty, so the loop provably reaches its exit
within two iterations from this initial state (see
`crawlLoopFuel_start_stable` below). -/
def crawl_related_articles (w : World) (startPage : Page)
    (init : List ArticleData) (depth max_articles : Nat) (now : String) :
    Bool × CrawlState :=
  if strStarts startPage.currentUrl wikiArticleBase then
    let start_url := startPage.currentUrl
    let data1 := (extract_article_data now startPage init).2
    let st0 : CrawlState :=
      { page := startPage, articles_data := data1, visited := [start_url],
        queue := [(start_url, 0)], articles_crawled := 1,
        enqueued := [start_url], loaded := [] }
    (true, crawlLoopFuel w depth max_articles now 2 st0)
  else
    (false,
      { page := startPage, articles_data := init, visited := [], queue := [],
        articles_crawled := 0, enqueued := [], loaded := [] })

/-! ## Featured-harvest strategy (src/main.py:261-378) -/

/-- One `li` of a curated main-page zone: the `(text, href)` of its first
anchor (`none` when that inner lookup raises and the item is skipped)
and the item's own text (used as the record's summary). -/
structure ZoneItem where
  anchor : Option (String × String)
  text : String
deriving DecidableEq

/-- The curated main page: the lead featured zone's `(title, url, summary)`
(`none` when any of those three load-bearing lookups fails, aborting the
whole call), and the news / did-you-know / on-this-day item lists. -/
structure MainPage where
  tfa : Option (String × String × String)
  newsItems : List ZoneItem
  dykItems : List ZoneItem
  otdItems : List ZoneItem

/-- The featured-article archive listing: the `(text, href)` of each
anchor found there (`none` when reading that one anchor raises). -/
structure ArchivePage where
  archiveAnchors : List (Option (String × String))

/-- A record appended from a curated region (fixed category label, empty
image, `date_scraped` from the extraction instant). -/
def curatedRecord (title url summary cat now : String) : ArticleData :=
  [("title", title), ("url", url), ("summary", summary),
   ("categories", cat), ("image_url", ""), ("date_scraped", now)]

/-- One zone loop: the first five items, keeping those whose anchor
lookup succeeds. -/
def zoneRecords (items : List ZoneItem) (cat now : String) : List ArticleData :=
  (items.take 5).filterMap
    (fun it => it.anchor.map (fun a => curatedRecord a.1 a.2 it.text cat now))

/-- The shared record list after the four curated zones have been
processed (lead feature, news, did-you-know, on-this-day), before the
archive top-up decision. -/
def zonesData (mp : MainPage) (tfa : String × String × String) (now : String)
    (articles_data : List ArticleData) : List ArticleData :=
  (((articles_data ++ [curatedRecord tfa.1 tfa.2.1 tfa.2.2 "Featured" now])
    ++ zoneRecords mp.newsItems "In the news" now)
    ++ zoneRecords mp.dykItems "Did you know" now)
    ++ zoneRecords mp.otdItems "On this day" now

/-- An archive top-up record (src/main.py:363-370). -/
def archiveRecord (title url now : String) : ArticleData :=
  curatedRecord title url ("Featured article archive: " ++ title)
    "Featured archive" now

/-- The archive top-up loop: before each link, stop as soon as the total
shared list already holds `count` records; a link whose read raises is
skipped. -/
def archiveLoop (count : Nat) (now : String) :
    List (Option (String × String)) → List ArticleData → List ArticleData
  | [], data => data
  | l :: rest, data =>
    if count ≤ data.length then data
    else
      match l with
      | none => archiveLoop count now rest data
      | some a => archiveLoop count now rest (data ++ [archiveRecord a.1 a.2 now])

/-- `extract_featured_articles`: aborts (returning `False`, appending
nothing) when a lead-zone lookup fails; otherwise appends the four
zones' records and, only if the total shared list is still below
`count`, tops up from the first ten archive anchors. -/
def extract_featured_articles (mp : MainPage) (ap : ArchivePage) (count : Nat)
    (now : String) (articles_data : List ArticleData) :
    Bool × List ArticleData :=
  match mp.tfa with
  | none => (false, articles_data)
  | some tfa =>
    let d4 := zonesData mp tfa now articles_data
    if d4.length < count then
      (true, archiveLoop count now (ap.archiveAnchors.take 10) d4)
    else (true, d4)

/-! ## Random sampling (src/main.py:380-400) -/

/-- Step-indexed model of the `while articles_collected < count` loop:
draw `i` yields the page `pages i`; an iteration increments the counter
only when extraction produced a record. `none` means the loop has not
finished within `fuel` iterations. -/
def collectRandomFuel (pages : Nat → Page) (now : String) (count : Nat) :
    Nat → Nat → Nat → List ArticleData → Option (Nat × List ArticleData)
  | 0, _, collected, data => if count ≤ collected then some (collected, data) else none
  | fuel + 1, i, collected, data =>
    if count ≤ collected then some (collected, data)
    else
      let step := extract_article_data now (pages i) data
      collectRandomFuel pages now count fuel (i + 1)
        (if step.1.isSome then collected + 1 else collected) step.2

/-- Number of draws in `[i, i+n)` whose page has a title (extraction
succeeds exactly on those). -/
def successCount (pages : Nat → Page) (i n : Nat) : Nat :=
  (List.range n).countP (fun k => (pages (i + k)).firstHeading.isSome)

/-! ## Tabular export (src/main.py:402-418) -/

/-- `save_to_csv`: on an empty record list it logs a warning and returns
`False` without attempting anything; otherwise the DataFrame build and
`to_csv` write run inside a try/except: `writeOk` models whether that
external I/O succeeds — on success the timestamped file is written
(one row per record) and the call returns `True`, on an exception the
error is logged and the call returns `False`.  The second component
models the successfully written file (name and rows), `none` = no file
written. -/
def save_to_csv (timestamp : String) (writeOk : Bool)
    (articles_data : List ArticleData) :
    Bool × Option (String × List ArticleData) :=
  if articles_data.isEmpty then (false, none)
  else if writeOk then
    (true, some ("wikipedia_articles_" ++ timestamp ++ ".csv", articles_data))
  else (false, none)

/-! ## Derived notions used only in theorem statements -/

/-- The state carried by a step outcome. -/
def stepState : StepRes → CrawlState
  | .done st => st
  | .next st => st

/-- Whether a step outcome lets the loop continue. -/
def StepRes.isNext : StepRes → Bool
  | .done _ => false
  | .next _ => true

/-- The Python-level denylist test as it applies to one selector-matched
anchor. -/
def harvestKeep (a : Anchor) : Bool := linkAllowed (resolveHref a.attrHref)

/-- The `{text, href}` pair built from one kept anchor. -/
def harvestLink (a : Anchor) : WikiLink := ⟨a.text, resolveHref a.attrHref⟩

/-! ## Lemmas: join / split round trip -/

lemma pySplitL_ne_nil (sep : Char) : ∀ l : List Char, pySplitL sep l ≠ []
  | [] => by simp [pySplitL]
  | c :: cs => by
    simp only [pySplitL]
    cases h : pySplitL sep cs with
    | nil => simp
    | cons w ws =>
      by_cases hc : c = sep <;> simp [hc]

lemma pySplitL_no_sep (sep : Char) :
    ∀ x : List Char, sep ∉ x → pySplitL sep x = [x]
  | [], _ => rfl
  | c :: cs, h => by
    have hc : c ≠ sep := fun hcc => h (hcc ▸ List.mem_cons_self c cs)
    have hcs : sep ∉ cs := fun hm => h (List.mem_cons_of_mem c hm)
    simp only [pySplitL, pySplitL_no_sep sep cs hcs]
    simp [hc]

lemma pySplitL_append_sep (sep : Char) :
    ∀ x t : List Char, sep ∉ x →
      pySplitL sep (x ++ sep :: t) = x :: pySplitL sep t
  | [], t, _ => by
    simp only [List.nil_append, pySplitL]
    cases h : pySplitL sep t with
    | nil => exact absurd h (pySplitL_ne_nil sep t)
    | cons w ws => simp
  | c :: cs, t, h => by
    have hc : c ≠ sep := fun hcc => h (hcc ▸ List.mem_cons_self c cs)
    have hcs : sep ∉ cs := fun hm => h (List.mem_cons_of_mem c hm)
    simp only [List.cons_append, pySplitL, List.append_eq]
    rw [pySplitL_append_sep sep cs t hcs]
    simp [hc]

lemma pyRoundL (sep : Char) :
    ∀ cats : List (List Char), cats ≠ [] → (∀ c ∈ cats, sep ∉ c) →
      pySplitL sep (pyJoinL sep cats) = cats
  | [], h, _ => absurd rfl h
  | [x], _, hall => by
    simpa [pyJoinL] using pySplitL_no_sep sep x (hall x (by simp))
  | x :: y :: rest, _, hall => by
    have hx : sep ∉ x := hall x (by simp)
    have hrest : ∀ c ∈ y :: rest, sep ∉ c := fun c hc =>
      hall c (List.mem_cons_of_mem x hc)
    simp only [pyJoinL, pySplitL_append_sep sep x _ hx,
      pyRoundL sep (y :: rest) (by simp) hrest]

lemma string_mk_toList (s : String) : String.mk s.toList = s := by
  cases s
  rfl

/-- Round trip of pipe-joining then pipe-splitting, for a non-empty list
of pipe-free category strings. -/
theorem pyRoundStr (cats : List String) (hne : cats ≠ [])
    (hfree : ∀ c ∈ cats, '|' ∉ c.toList) :
    pySplitStr (pyJoinStr cats) = cats := by
  have h1 : pySplitStr (pyJoinStr cats)
      = (pySplitL '|' (pyJoinL '|' (cats.map String.toList))).map String.mk := rfl
  rw [h1, pyRoundL '|' (cats.map String.toList)
      (by simpa using hne)
      (by intro c hc
          obtain ⟨s, hs, rfl⟩ := List.mem_map.mp hc
          exact hfree s hs)]
  rw [List.map_map]
  have : ∀ s ∈ cats, (String.mk ∘ String.toList) s = id s := fun s _ =>
    string_mk_toList s
  rw [List.map_congr_left this, List.map_id]

/-! ## Concrete pages used by witnesses and counterexamples -/

/-- A page whose title lookup succeeds but whose category region is
present and empty. -/
def pageNoCats : Page :=
  { firstHeading := some "T", currentUrl := "https://en.wikipedia.org/wiki/T",
    introParagraph := some "s", categoryLinks := some [],
    infoboxImage := none, contentAnchors := none }

/-- A page with two ordinary categories. -/
def pageTwoCats : Page :=
  { firstHeading := some "T", currentUrl := "https://en.wikipedia.org/wiki/T",
    introParagraph := some "s", categoryLinks := some ["Alpha", "Beta"],
    infoboxImage := some "", contentAnchors := some [] }

/-- A page with no title element (the `#firstHeading` wait times out). -/
def pageNoTitle : Page :=
  { firstHeading := none, currentUrl := "https://en.wikipedia.org/wiki/N",
    introParagraph := some "s", categoryLinks := some [],
    infoboxImage := none, contentAnchors := none }

/-- A page with a title but with every optional region missing. -/
def pageBare : Page :=
  { firstHeading := some "T", currentUrl := "https://en.wikipedia.org/wiki/B",
    introParagraph := none, categoryLinks := none,
    infoboxImage := none, contentAnchors := none }

/-! ## C3: extractor error policy -/

/-- C3: for every loaded page, `extract_article_data` returns a null
result and appends nothing when the title lookup fails; when the title
is present, a record is produced and appended whose `date_scraped` is
the extraction instant, and each other failing lookup is replaced by its
declared fallback ("Summary not found"; the empty category sequence,
stored pipe-joined; the empty image string). -/
theorem c3_extractor_error_policy :
    ∀ (now : String) (page : Page) (data : List ArticleData),
      (page.firstHeading = none → extract_article_data now page data = (none, data))
      ∧ (∀ t, page.firstHeading = some t →
          (∃ r, extract_article_data now page data = (some r, data ++ [r]))
          ∧ ((extract_article_data now page data).1.bind
              (fun r => lookupField r "date_scraped") = some now)
          ∧ (page.introParagraph = none →
              (extract_article_data now page data).1.bind
                (fun r => lookupField r "summary") = some "Summary not found")
          ∧ (page.categoryLinks = none →
              (extract_article_data now page data).1.bind
                (fun r => lookupField r "categories") = some (pyJoinStr []))
          ∧ (page.infoboxImage = none →
              (extract_article_data now page data).1.bind
                (fun r => lookupField r "image_url") = some "")) := by
  intro now page data
  constructor
  · intro h
    simp [extract_article_data, h]
  · intro t ht
    refine ⟨⟨[("title", t), ("url", page.currentUrl),
      ("summary",
        match page.introParagraph with
        | some s => s
        | none => "Summary not found"),
      ("categories", pyJoinStr
        (match page.categoryLinks with
        | some cs => cs
        | none => [])),
      ("image_url",
        match page.infoboxImage with
        | some i => i
        | none => ""),
      ("date_scraped", now)], by simp [extract_article_data, ht]⟩, ?_, ?_, ?_, ?_⟩
    · simp [extract_article_data, ht, lookupField, List.find?]
    · intro h
      simp [extract_article_data, ht, h, lookupField, List.find?]
    · intro h
      simp [extract_article_data, ht, h, lookupField, List.find?]
    · intro h
      simp [extract_article_data, ht, h, lookupField, List.find?]

/-- C3 witness: the policy instantiated on a page with no title and on a
page with a title but no optional regions. -/
theorem c3_witness :
    (extract_article_data "d" pageNoTitle [] = (none, []))
    ∧ ((extract_article_data "d" pageBare []).1.bind
        (fun r => lookupField r "date_scraped") = some "d")
    ∧ ((extract_article_data "d" pageBare []).1.bind
        (fun r => lookupField r "summary") = some "Summary not found")
    ∧ ((extract_article_data "d" pageBare []).1.bind
        (fun r => lookupField r "categories") = some (pyJoinStr []))
    ∧ ((extract_article_data "d" pageBare []).1.bind
        (fun r => lookupField r "image_url") = some "") :=
  ⟨(c3_extractor_error_policy "d" pageNoTitle []).1 rfl,
   ((c3_extractor_error_policy "d" pageBare []).2 "T" rfl).2.1,
   ((c3_extractor_error_policy "d" pageBare []).2 "T" rfl).2.2.1 rfl,
   ((c3_extractor_error_policy "d" pageBare []).2 "T" rfl).2.2.2.1 rfl,
   ((c3_extractor_error_policy "d" pageBare []).2 "T" rfl).2.2.2.2 rfl⟩

/-! ## C6: export of an empty result set -/

/-- C6 counterexample: with an empty result set no file is written even
with a perfectly working sink — the export is not attempted
(`save_to_csv` returns `False` after logging "No data to save to CSV"
before any I/O), contradicting the claim that the export is still
attempted. -/
theorem c6_counterexample :
    ((save_to_csv "20250101_000000" true []).2).isSome = false := by decide

/-- C6 amended: when a run ends with an empty result set, the tabular
export is NOT attempted: `save_to_csv` logs a warning and returns
`False` without writing a file and without raising, whether or not the
sink would have accepted a write. -/
theorem c6_empty_export_amended :
    ∀ (ts : String) (writeOk : Bool),
      save_to_csv ts writeOk [] = (false, none) := by
  intro ts writeOk
  simp [save_to_csv]

/-! ## C9: export round trip for the categories column -/

/-- C9 counterexample: the extractor can produce the empty category
sequence; the exported cell is then `""`, and re-splitting `""` on the
pipe delimiter yields `[""]`, not the original empty sequence — the
round trip fails for the empty sequence the claim explicitly includes. -/
theorem c9_counterexample :
    ((extract_article_data "d" pageNoCats []).1.bind
      (fun r => lookupField r "categories") = some "")
    ∧ pySplitStr "" = [""]
    ∧ ([""] : List String) ≠ [] := by
  refine ⟨by decide, by decide, by decide⟩

/-- C9 amended: for every record the extractor produces from a page with
a non-empty category sequence none of whose entries contains the pipe
delimiter, the stored categories cell is the pipe-join of the sequence
and re-splitting it on the pipe yields the original ordered sequence
(for the empty sequence the re-split instead yields `[""]`). -/
theorem c9_export_roundTrip_amended :
    ∀ (now : String) (page : Page) (data : List ArticleData)
      (t : String) (cats : List String),
      page.firstHeading = some t →
      page.categoryLinks = some cats →
      cats ≠ [] →
      (∀ c ∈ cats, '|' ∉ c.toList) →
      ((extract_article_data now page data).1.bind
          (fun r => lookupField r "categories") = some (pyJoinStr cats))
      ∧ pySplitStr (pyJoinStr cats) = cats := by
  intro now page data t cats ht hcat hne hfree
  constructor
  · simp [extract_article_data, ht, hcat, lookupField, List.find?]
  · exact pyRoundStr cats hne hfree

/-- C9 witness: the amended round trip at a concrete two-category page. -/
theorem c9_witness :
    ((extract_article_data "d" pageTwoCats []).1.bind
        (fun r => lookupField r "categories") = some (pyJoinStr ["Alpha", "Beta"]))
    ∧ pySplitStr (pyJoinStr ["Alpha", "Beta"]) = ["Alpha", "Beta"] :=
  c9_export_roundTrip_amended "d" pageTwoCats [] "T" ["Alpha", "Beta"]
    rfl rfl (by decide) (by decide)

/-! ## Lemmas: link harvester -/

lemma strToList_append (s t : String) : (s ++ t).toList = s.toList ++ t.toList := by
  cases s
  cases t
  rfl

lemma startsWithL_append_left :
    ∀ (x y z : List Char), startsWithL y z = true → startsWithL (x ++ y) (x ++ z) = true
  | [], _, _, h => h
  | c :: x, y, z, h => by
    simp only [List.cons_append, startsWithL, Bool.and_eq_true]
    exact ⟨by simp, startsWithL_append_left x y z h⟩

lemma selector_resolved_base (a : Anchor) (h : selectorMatches a = true) :
    strStarts (resolveHref a.attrHref) wikiArticleBase = true := by
  have h1 : startsWithL a.attrHref.toList ("/wiki/").toList = true := by
    simp only [selectorMatches, strStarts, Bool.and_eq_true] at h
    exact h.1
  show startsWithL (wikiHost ++ a.attrHref).toList wikiArticleBase.toList = true
  rw [strToList_append]
  have hbase : wikiArticleBase.toList = wikiHost.toList ++ ("/wiki/").toList := by decide
  rw [hbase]
  exact startsWithL_append_left _ _ _ h1

lemma harvestGo_spec (cap : Nat) :
    ∀ (anchors : List Anchor) (acc : List WikiLink), acc.length < cap →
      harvestGo cap anchors acc
        = acc ++ ((anchors.filter harvestKeep).map harvestLink).take (cap - acc.length)
  | [], acc, _ => by simp [harvestGo]
  | a :: rest, acc, hacc => by
    simp only [harvestGo]
    by_cases hk : linkAllowed (resolveHref a.attrHref)
    · rw [if_pos hk]
      have hfk : harvestKeep a = true := hk
      by_cases hcap :
          cap ≤ (acc ++ [(⟨a.text, resolveHref a.attrHref⟩ : WikiLink)]).length
      · rw [if_pos hcap]
        have hone : cap - acc.length = 1 := by
          simp only [List.length_append, List.length_cons, List.length_nil] at hcap
          omega
        simp [List.filter_cons, hfk, hone, harvestLink]
      · rw [if_neg hcap]
        have hlt : (acc ++ [(⟨a.text, resolveHref a.attrHref⟩ : WikiLink)]).length < cap := by
          omega
        rw [harvestGo_spec cap rest _ hlt]
        have hsplit : cap - acc.length
            = (cap - (acc ++ [(⟨a.text, resolveHref a.attrHref⟩ : WikiLink)]).length) + 1 := by
          simp only [List.length_append, List.length_cons, List.length_nil] at hcap ⊢
          omega
        simp [List.filter_cons, hfk, hsplit, List.take_succ_cons, harvestLink]
    · rw [if_neg hk]
      have hfk : harvestKeep a = false := by
        simp [harvestKeep, hk]
      rw [harvestGo_spec cap rest acc hacc]
      simp [List.filter_cons, hfk]

/-! ## C4: link harvester filtering, cap, order -/

/-- C4 amended: for every loaded article page and every POSITIVE cap, the
harvested list is exactly the first `cap` selector-matched, denylist-free
anchors in document order (take-after-filter form), hence has at most
`cap` elements, each of whose hrefs starts with the article-path prefix
and passes the denylist; on scan failure the result is the empty list.
(For cap = 0 the source still returns one candidate, because the break
is checked only after an append — see the counterexample.) -/
theorem c4_link_harvester_amended :
    ∀ (page : Page) (cap : Nat), 1 ≤ cap →
      (∀ anchors, page.contentAnchors = some anchors →
        extract_links_from_article page cap
          = (((anchors.filter selectorMatches).filter harvestKeep).map harvestLink).take cap
        ∧ (extract_links_from_article page cap).length ≤ cap
        ∧ (∀ l ∈ extract_links_from_article page cap,
            strStarts l.href wikiArticleBase = true ∧ linkAllowed l.href = true))
      ∧ (page.contentAnchors = none → extract_links_from_article page cap = []) := by
  intro page cap hcap
  constructor
  · intro anchors ha
    have heq : extract_links_from_article page cap
        = (((anchors.filter selectorMatches).filter harvestKeep).map harvestLink).take cap := by
      simp only [extract_links_from_article, ha]
      rw [harvestGo_spec cap _ [] (by simpa using hcap)]
      simp
    refine ⟨heq, ?_, ?_⟩
    · rw [heq, List.length_take]
      exact min_le_left _ _
    · intro l hl
      rw [heq] at hl
      have hl2 := List.take_subset _ _ hl
      obtain ⟨a, haf, rfl⟩ := List.mem_map.mp hl2
      have hmem := List.mem_filter.mp haf
      have hsel : selectorMatches a = true := (List.mem_filter.mp hmem.1).2
      exact ⟨selector_resolved_base a hsel, hmem.2⟩
  · intro ha
    simp [extract_links_from_article, ha]

/-- A page with four content anchors: two plain articles, one Talk page
(dropped by the selector), one more article. -/
def pageLinks : Page :=
  { firstHeading := some "T", currentUrl := "https://en.wikipedia.org/wiki/A",
    introParagraph := none, categoryLinks := none, infoboxImage := none,
    contentAnchors := some
      [⟨"B", "/wiki/B"⟩, ⟨"Talk", "/wiki/Talk:B"⟩, ⟨"C", "/wiki/C"⟩, ⟨"D", "/wiki/D"⟩] }

/-- C4 witness: the amended statement at a concrete page and cap 2. -/
theorem c4_witness :
    (extract_links_from_article pageLinks 2
      = ((((
          [⟨"B", "/wiki/B"⟩, ⟨"Talk", "/wiki/Talk:B"⟩, ⟨"C", "/wiki/C"⟩,
           ⟨"D", "/wiki/D"⟩] : List Anchor).filter selectorMatches).filter
            harvestKeep).map harvestLink).take 2)
    ∧ (extract_links_from_article pageLinks 2).length ≤ 2 :=
  ⟨((c4_link_harvester_amended pageLinks 2 (by decide)).1 _ rfl).1,
   ((c4_link_harvester_amended pageLinks 2 (by decide)).1 _ rfl).2.1⟩

/-- C4 counterexample: with cap 0 the harvester still returns one
candidate (the break `len >= max_links` runs only after an append), so
"at most cap candidates" fails for the cap value 0. -/
theorem c4_counterexample :
    ¬ ((extract_links_from_article pageLinks 0).length ≤ 0) := by decide

/-! ## Lemmas: random sampling -/

lemma extract_isSome (now : String) (p : Page) (data : List ArticleData) :
    (extract_article_data now p data).1.isSome = p.firstHeading.isSome := by
  cases h : p.firstHeading <;> simp [extract_article_data, h]

lemma successCount_succ (pages : Nat → Page) (i n : Nat) :
    successCount pages i (n + 1)
      = (if (pages i).firstHeading.isSome then 1 else 0)
        + successCount pages (i + 1) n := by
  rw [successCount, List.range_succ_eq_map, List.countP_cons, List.countP_map]
  have hpt : List.countP
      ((fun k => (pages (i + k)).firstHeading.isSome) ∘ fun k => k + 1)
      (List.range n) = successCount pages (i + 1) n := by
    rw [successCount]
    refine List.countP_congr ?_
    intro k _
    have hk : i + (k + 1) = i + 1 + k := by omega
    simp [Function.comp, hk]
  rw [hpt]
  exact Nat.add_comm _ _

lemma collectRandom_reaches (pages : Nat → Page) (now : String) (count : Nat) :
    ∀ (f i c : Nat) (data : List ArticleData), c ≤ count →
      count ≤ c + successCount pages i f →
      ∃ d2, collectRandomFuel pages now count f i c data = some (count, d2)
  | 0, i, c, data, hle, hreach => by
    have hc : count ≤ c := by
      simpa [successCount] using hreach
    have : c = count := le_antisymm hle hc
    exact ⟨data, by simp [collectRandomFuel, this]⟩
  | f + 1, i, c, data, hle, hreach => by
    by_cases hc : count ≤ c
    · have hec : c = count := le_antisymm hle hc
      exact ⟨data, by simp [collectRandomFuel, hc, hec]⟩
    · rw [successCount_succ] at hreach
      simp only [collectRandomFuel, if_neg hc]
      by_cases hsome : (pages i).firstHeading.isSome
      · have hstep : (extract_article_data now (pages i) data).1.isSome = true := by
          rw [extract_isSome]
          exact hsome
        rw [if_pos hstep]
        exact collectRandom_reaches pages now count f (i + 1) (c + 1) _
          (by omega) (by simp [hsome] at hreach; omega)
      · have hstep : (extract_article_data now (pages i) data).1.isSome = false := by
          rw [extract_isSome]
          simpa using hsome
        rw [if_neg (by simp [hstep])]
        exact collectRandom_reaches pages now count f (i + 1) c _
          hle (by simp [hsome] at hreach; omega)

lemma collectRandom_diverges (pages : Nat → Page) (now : String) (count : Nat)
    (hfail : ∀ i, (pages i).firstHeading = none) :
    ∀ (f i c : Nat) (data : List ArticleData), c < count →
      collectRandomFuel pages now count f i c data = none
  | 0, _, c, data, hc => by
    simp only [collectRandomFuel]
    rw [if_neg (Nat.not_le.mpr hc)]
  | f + 1, i, c, data, hc => by
    have hno : extract_article_data now (pages i) data = (none, data) := by
      simp [extract_article_data, hfail i]
    simp only [collectRandomFuel, hno]
    rw [if_neg (Nat.not_le.mpr hc)]
    simpa using collectRandom_diverges pages now count hfail f (i + 1) c data hc

/-! ## C8: random-sampling loop termination -/

/-- C8: the random-sampling loop stops exactly at `count` successful
extractions: whenever the first `n` random draws contain at least
`count` pages with a title (extraction succeeds exactly on those), the
loop finishes within `n` iterations having collected exactly `count`
records; and when every draw fails extraction, the loop is still running
after every finite number of iterations (no attempt bound exists). -/
theorem c8_random_sampling_termination :
    ∀ (pages : Nat → Page) (now : String) (count : Nat)
      (init : List ArticleData) (n f : Nat),
      (count ≤ successCount pages 0 n →
        (collectRandomFuel pages now count n 0 0 init).map (fun r => r.1)
          = some count)
      ∧ ((∀ i, (pages i).firstHeading = none) → 1 ≤ count →
          collectRandomFuel pages now count f 0 0 init = none) := by
  intro pages now count init n f
  constructor
  · intro h
    obtain ⟨d2, hd⟩ := collectRandom_reaches pages now count n 0 0 init
      (Nat.zero_le _) (by omega)
    rw [hd]
    rfl
  · intro hfail hcount
    exact collectRandom_diverges pages now count hfail f 0 0 init (by omega)

/-- C8 witness: with every draw succeeding, a target of 2 is reached
within 3 iterations with exactly 2 records; with every draw failing, the
loop has not finished after 5 iterations. -/
theorem c8_witness :
    ((collectRandomFuel (fun _ => pageBare) "d" 2 3 0 0 []).map (fun r => r.1)
      = some 2)
    ∧ collectRandomFuel (fun _ => pageNoTitle) "d" 1 5 0 0 [] = none :=
  ⟨(c8_random_sampling_termination (fun _ => pageBare) "d" 2 [] 3 5).1 (by decide),
   (c8_random_sampling_termination (fun _ => pageNoTitle) "d" 1 [] 3 5).2
     (fun _ => rfl) (by decide)⟩

/-! ## Lemmas: record shape across all append sites -/

lemma extract_mem (now : String) (page : Page) (data : List ArticleData)
    (r : ArticleData) (hr : r ∈ (extract_article_data now page data).2) :
    r ∈ data ∨ hasSixKeys r := by
  cases h : page.firstHeading with
  | none =>
    simp [extract_article_data, h] at hr
    exact Or.inl hr
  | some t =>
    simp [extract_article_data, h] at hr
    rcases hr with hr | hr
    · exact Or.inl hr
    · right
      subst hr
      rfl

lemma curatedRecord_keys (t u s c n : String) :
    hasSixKeys (curatedRecord t u s c n) := rfl

lemma zoneRecords_mem (items : List ZoneItem) (cat now : String)
    (r : ArticleData) (hr : r ∈ zoneRecords items cat now) : hasSixKeys r := by
  rw [zoneRecords] at hr
  obtain ⟨it, _, hmap⟩ := List.mem_filterMap.mp hr
  obtain ⟨a, _, hfa⟩ := Option.map_eq_some'.mp hmap
  rw [← hfa]
  exact curatedRecord_keys _ _ _ _ _

lemma zonesData_mem (mp : MainPage) (tfa : String × String × String)
    (now : String) (data : List ArticleData) (r : ArticleData)
    (hr : r ∈ zonesData mp tfa now data) : r ∈ data ∨ hasSixKeys r := by
  simp only [zonesData, List.mem_append, List.mem_singleton] at hr
  rcases hr with (((hr | hr) | hr) | hr) | hr
  · exact Or.inl hr
  · right
    subst hr
    exact curatedRecord_keys _ _ _ _ _
  · exact Or.inr (zoneRecords_mem _ _ _ _ hr)
  · exact Or.inr (zoneRecords_mem _ _ _ _ hr)
  · exact Or.inr (zoneRecords_mem _ _ _ _ hr)

lemma archiveLoop_mem (count : Nat) (now : String) :
    ∀ (ls : List (Option (String × String))) (data : List ArticleData)
      (r : ArticleData), r ∈ archiveLoop count now ls data →
      r ∈ data ∨ hasSixKeys r
  | [], data, r, hr => Or.inl hr
  | l :: rest, data, r, hr => by
    rw [archiveLoop.eq_def] at hr
    simp only [] at hr
    by_cases h : count ≤ data.length
    · rw [if_pos h] at hr
      exact Or.inl hr
    · rw [if_neg h] at hr
      cases l with
      | none => exact archiveLoop_mem count now rest data r hr
      | some a =>
        rcases archiveLoop_mem count now rest _ r hr with hm | hm
        · rcases List.mem_append.mp hm with hm | hm
          · exact Or.inl hm
          · right
            rw [List.mem_singleton.mp hm]
            exact curatedRecord_keys _ _ _ _ _
        · exact Or.inr hm

lemma featured_mem (mp : MainPage) (ap : ArchivePage) (count : Nat)
    (now : String) (data : List ArticleData) (r : ArticleData)
    (hr : r ∈ (extract_featured_articles mp ap count now data).2) :
    r ∈ data ∨ hasSixKeys r := by
  cases htfa : mp.tfa with
  | none =>
    simp [extract_featured_articles, htfa] at hr
    exact Or.inl hr
  | some tfa =>
    simp only [extract_featured_articles, htfa] at hr
    by_cases h : (zonesData mp tfa now data).length < count
    · rw [if_pos h] at hr
      rcases archiveLoop_mem count now _ _ r hr with hm | hm
      · exact zonesData_mem mp tfa now data r hm
      · exact Or.inr hm
    · rw [if_neg h] at hr
      exact zonesData_mem mp tfa now data r hr

lemma collect_mem (pages : Nat → Page) (now : String) (count : Nat) :
    ∀ (f i c : Nat) (data : List ArticleData) (n : Nat)
      (d2 : List ArticleData) (r : ArticleData),
      collectRandomFuel pages now count f i c data = some (n, d2) →
      r ∈ d2 → r ∈ data ∨ hasSixKeys r
  | 0, i, c, data, n, d2, r, heq, hr => by
    rw [collectRandomFuel] at heq
    by_cases h : count ≤ c
    · rw [if_pos h] at heq
      cases heq
      exact Or.inl hr
    · rw [if_neg h] at heq
      cases heq
  | f + 1, i, c, data, n, d2, r, heq, hr => by
    rw [collectRandomFuel] at heq
    by_cases h : count ≤ c
    · rw [if_pos h] at heq
      cases heq
      exact Or.inl hr
    · rw [if_neg h] at heq
      rcases collect_mem pages now count f (i + 1) _ _ n d2 r heq hr with hm | hm
      · exact extract_mem now (pages i) data r hm
      · exact Or.inr hm

lemma crawlStep_mem (w : World) (depth m : Nat) (now : String)
    (st : CrawlState) (r : ArticleData)
    (hr : r ∈ (stepState (crawlStep w depth m now st)).articles_data) :
    r ∈ st.articles_data ∨ hasSixKeys r := by
  cases hq : st.queue with
  | nil =>
    simp [crawlStep, hq, stepState] at hr
    exact Or.inl hr
  | cons hd rest =>
    obtain ⟨u, ud⟩ := hd
    by_cases h1 : m ≤ st.articles_crawled
    · simp [crawlStep, hq, h1, stepState] at hr
      exact Or.inl hr
    · by_cases h2 : u ∈ st.visited
      · simp [crawlStep, hq, h1, h2, stepState] at hr
        exact Or.inl hr
      · by_cases h3 : m ≤ st.articles_crawled + 1
        · simp [crawlStep, hq, h1, h2, h3, stepState] at hr
          exact extract_mem _ _ _ _ hr
        · by_cases h4 : ud < depth
          · simp [crawlStep, hq, h1, h2, h3, h4, stepState] at hr
            exact extract_mem _ _ _ _ hr
          · simp [crawlStep, hq, h1, h2, h3, h4, stepState] at hr
            exact extract_mem _ _ _ _ hr

lemma crawlLoopFuel_mem (w : World) (depth m : Nat) (now : String) :
    ∀ (fuel : Nat) (st : CrawlState) (r : ArticleData),
      r ∈ (crawlLoopFuel w depth m now fuel st).articles_data →
      r ∈ st.articles_data ∨ hasSixKeys r
  | 0, st, r, hr => Or.inl hr
  | fuel + 1, st, r, hr => by
    rw [crawlLoopFuel] at hr
    cases hstep : crawlStep w depth m now st with
    | done st2 =>
      rw [hstep] at hr
      have : r ∈ (stepState (crawlStep w depth m now st)).articles_data := by
        rw [hstep]
        exact hr
      exact crawlStep_mem w depth m now st r this
    | next st2 =>
      rw [hstep] at hr
      rcases crawlLoopFuel_mem w depth m now fuel st2 r hr with hm | hm
      · have : r ∈ (stepState (crawlStep w depth m now st)).articles_data := by
          rw [hstep]
          exact hm
        exact crawlStep_mem w depth m now st r this
      · exact Or.inr hm

/-! ## C7: fields of appended records -/

/-- A page whose heading element exists but has empty text. -/
def pageEmptyTitle : Page :=
  { firstHeading := some "", currentUrl := "https://en.wikipedia.org/wiki/X",
    introParagraph := some "s", categoryLinks := some [],
    infoboxImage := none, contentAnchors := none }

/-- The record extracted from `pageEmptyTitle`. -/
def rEmptyTitle : ArticleData :=
  [("title", ""), ("url", "https://en.wikipedia.org/wiki/X"), ("summary", "s"),
   ("categories", ""), ("image_url", ""), ("date_scraped", "d")]

/-- C7 counterexample: the extractor happily appends a record whose
`title` value is the empty string (a located heading element with empty
text), so "every appended record has a non-empty title" fails. -/
theorem c7_counterexample :
    (extract_article_data "d" pageEmptyTitle []).2 = [rEmptyTitle]
    ∧ lookupField rEmptyTitle "title" = some "" := by decide

/-- C7 amended: every record appended by any acquisition strategy (field
extraction, featured-harvest zones and archive top-up, random sampling,
crawling) carries exactly the six keys title/url/summary/categories/
image_url/date_scraped; non-emptiness of the `title` and `url` values is
not enforced anywhere (see the counterexample). -/
theorem c7_record_shape_amended :
    ∀ (now : String) (page : Page) (data : List ArticleData)
      (mp : MainPage) (ap : ArchivePage) (count : Nat)
      (pages : Nat → Page) (f n : Nat) (d2 : List ArticleData)
      (w : World) (sp : Page) (init : List ArticleData) (depth mA : Nat)
      (r : ArticleData),
      (r ∈ (extract_article_data now page data).2 → r ∈ data ∨ hasSixKeys r)
      ∧ (r ∈ (extract_featured_articles mp ap count now data).2 →
          r ∈ data ∨ hasSixKeys r)
      ∧ (collectRandomFuel pages now count f 0 0 data = some (n, d2) →
          r ∈ d2 → r ∈ data ∨ hasSixKeys r)
      ∧ (r ∈ (crawl_related_articles w sp init depth mA now).2.articles_data →
          r ∈ init ∨ hasSixKeys r) := by
  intro now page data mp ap count pages f n d2 w sp init depth mA r
  refine ⟨extract_mem now page data r,
          featured_mem mp ap count now data r,
          collect_mem pages now count f 0 0 data n d2 r, ?_⟩
  intro hr
  by_cases hpre : strStarts sp.currentUrl wikiArticleBase = true
  · simp only [crawl_related_articles, if_pos hpre] at hr
    rcases crawlLoopFuel_mem w depth mA now 2 _ r hr with hm | hm
    · simp only [] at hm
      exact extract_mem now sp init r hm
    · exact Or.inr hm
  · simp only [crawl_related_articles, if_neg hpre] at hr
    exact Or.inl hr

/-- A world in which every navigation fails. -/
def emptyWorld : World := { pages := fun _ => none }

/-- The record extracted from `pageBare` at instant "d". -/
def rBareRec : ArticleData :=
  [("title", "T"), ("url", "https://en.wikipedia.org/wiki/B"),
   ("summary", "Summary not found"), ("categories", ""), ("image_url", ""),
   ("date_scraped", "d")]

/-- A curated main page with one lead feature and empty zones. -/
def mpOne : MainPage :=
  { tfa := some ("F", "u", "s"), newsItems := [], dykItems := [], otdItems := [] }

/-- A featured archive listing with three readable anchors and one
unreadable one. -/
def apOne : ArchivePage :=
  { archiveAnchors := [some ("A1", "u1"), none, some ("A2", "u2"), some ("A3", "u3")] }

/-- C7 witness: the amended statement applied at a concrete record of
each acquisition strategy. -/
theorem c7_witness :
    (rBareRec ∈ ([] : List ArticleData) ∨ hasSixKeys rBareRec)
    ∧ (curatedRecord "F" "u" "s" "Featured" "d" ∈ ([] : List ArticleData)
        ∨ hasSixKeys (curatedRecord "F" "u" "s" "Featured" "d"))
    ∧ (rBareRec ∈ ([([("k", "v")] : ArticleData)] : List ArticleData)
        ∨ hasSixKeys rBareRec) :=
  ⟨(c7_record_shape_amended "d" pageBare [] mpOne apOne 0 (fun _ => pageBare)
      1 1 [rBareRec] emptyWorld pageBare [] 2 3 rBareRec).1 (by decide),
   (c7_record_shape_amended "d" pageBare [] mpOne apOne 0 (fun _ => pageBare)
      1 1 [rBareRec] emptyWorld pageBare [] 2 3
      (curatedRecord "F" "u" "s" "Featured" "d")).2.1 (by decide),
   (c7_record_shape_amended "d" pageBare [[("k", "v")]] mpOne apOne 1
      (fun _ => pageBare) 1 1 [[("k", "v")], rBareRec] emptyWorld pageBare
      [] 2 3 rBareRec).2.2.1 (by decide) (by decide)⟩

/-! ## Lemmas: archive top-up arithmetic -/

lemma archiveLoop_length (count : Nat) (now : String) :
    ∀ (ls : List (Option (String × String))) (data : List ArticleData),
      (archiveLoop count now ls data).length
        = data.length + min (ls.filterMap id).length (count - data.length)
  | [], data => by simp [archiveLoop]
  | none :: rest, data => by
    rw [archiveLoop.eq_def]
    simp only []
    by_cases h : count ≤ data.length
    · rw [if_pos h]
      have h0 : count - data.length = 0 := by omega
      simp [h0]
    · rw [if_neg h]
      rw [archiveLoop_length count now rest data]
      simp
  | some a :: rest, data => by
    rw [archiveLoop.eq_def]
    simp only []
    by_cases h : count ≤ data.length
    · rw [if_pos h]
      have h0 : count - data.length = 0 := by omega
      simp [h0]
    · rw [if_neg h]
      rw [archiveLoop_length count now rest (data ++ [archiveRecord a.1 a.2 now])]
      simp only [List.filterMap_cons, id, List.length_append, List.length_cons,
        List.length_nil, List.length_singleton]
      omega

lemma zonesData_length_ge (mp : MainPage) (tfa : String × String × String)
    (now : String) (data : List ArticleData) :
    data.length ≤ (zonesData mp tfa now data).length := by
  simp [zonesData]

/-! ## C10: archive top-up threshold uses the shared record list -/

/-- C10: the featured harvest decides whether to top up from the archive,
and when to stop, by comparing the TOTAL length of the shared record
list (records inherited from earlier strategies included) against
`count`: the number of archive records appended is exactly
`min (readable anchors among the first ten) (count - length of the list
after the zones)`, and a call entered with `count` or more records
already on the shared list appends no archive record at all. -/
theorem c10_archive_threshold :
    ∀ (mp : MainPage) (ap : ArchivePage) (count : Nat) (now : String)
      (init : List ArticleData) (tfa : String × String × String),
      mp.tfa = some tfa →
      ((extract_featured_articles mp ap count now init).2.length
        = (zonesData mp tfa now init).length
          + min ((ap.archiveAnchors.take 10).filterMap id).length
              (count - (zonesData mp tfa now init).length))
      ∧ (count ≤ init.length →
          (extract_featured_articles mp ap count now init).2
            = zonesData mp tfa now init) := by
  intro mp ap count now init tfa htfa
  constructor
  · simp only [extract_featured_articles, htfa]
    by_cases h : (zonesData mp tfa now init).length < count
    · rw [if_pos h]
      exact archiveLoop_length count now _ _
    · rw [if_neg h]
      have h0 : count - (zonesData mp tfa now init).length = 0 := by omega
      simp [h0]
  · intro hcount
    have hge := zonesData_length_ge mp tfa now init
    simp only [extract_featured_articles, htfa]
    rw [if_neg (by omega)]

/-- C10 witness: with one inherited record, count 3 and three readable
archive anchors among the first ten, exactly min(3, 3-2) = 1 archive
record is appended; a call entered with the shared list already at the
count appends no archive record. -/
theorem c10_witness :
    ((extract_featured_articles mpOne apOne 3 "d" [rBareRec]).2.length
      = (zonesData mpOne ("F", "u", "s") "d" [rBareRec]).length
        + min ((apOne.archiveAnchors.take 10).filterMap id).length
            (3 - (zonesData mpOne ("F", "u", "s") "d" [rBareRec]).length))
    ∧ (extract_featured_articles mpOne apOne 0 "d" []).2
        = zonesData mpOne ("F", "u", "s") "d" [] :=
  ⟨(c10_archive_threshold mpOne apOne 3 "d" [rBareRec] ("F", "u", "s") rfl).1,
   (c10_archive_threshold mpOne apOne 0 "d" [] ("F", "u", "s") rfl).2 (by decide)⟩

/-! ## Lemmas: crawl budget accounting -/

lemma extract_len (now : String) (p : Page) (data : List ArticleData) :
    (extract_article_data now p data).2.length ≤ data.length + 1 := by
  cases h : p.firstHeading <;> simp [extract_article_data, h]

lemma crawlStep_done (w : World) (depth m : Nat) (now : String) (st : CrawlState)
    (h : m ≤ st.articles_crawled ∨ st.queue = []) :
    crawlStep w depth m now st = .done st := by
  rcases h with h | h
  · cases hq : st.queue with
    | nil => simp [crawlStep, hq]
    | cons hd rest =>
      obtain ⟨u, ud⟩ := hd
      simp [crawlStep, hq, h]
  · simp [crawlStep, h]

lemma crawlLoopFuel_halt (w : World) (depth m : Nat) (now : String) :
    ∀ (f : Nat) (st : CrawlState), m ≤ st.articles_crawled ∨ st.queue = [] →
      crawlLoopFuel w depth m now f st = st
  | 0, _, _ => rfl
  | f + 1, st, h => by
    simp only [crawlLoopFuel, crawlStep_done w depth m now st h]

lemma crawlStep_counts (w : World) (depth m : Nat) (now : String) (st : CrawlState) :
    ((stepState (crawlStep w depth m now st)).articles_data.length
        + st.articles_crawled
      ≤ st.articles_data.length
        + (stepState (crawlStep w depth m now st)).articles_crawled)
    ∧ (stepState (crawlStep w depth m now st)).articles_crawled
        ≤ max st.articles_crawled m := by
  cases hq : st.queue with
  | nil =>
    simp only [crawlStep, hq, stepState]
    omega
  | cons hd rest =>
    obtain ⟨u, ud⟩ := hd
    by_cases h1 : m ≤ st.articles_crawled
    · simp only [crawlStep, hq, if_pos h1, stepState]
      omega
    · by_cases h2 : u ∈ st.visited
      · simp only [crawlStep, hq, if_neg h1, if_pos h2, stepState]
        omega
      · have hlen := extract_len now ((navigate_to_url w st.page u).2) st.articles_data
        by_cases h3 : m ≤ st.articles_crawled + 1
        · simp only [crawlStep, hq, if_neg h1, if_neg h2, if_pos h3, stepState]
          omega
        · by_cases h4 : ud < depth
          · simp only [crawlStep, hq, if_neg h1, if_neg h2, if_neg h3, if_pos h4,
              stepState]
            omega
          · simp only [crawlStep, hq, if_neg h1, if_neg h2, if_neg h3, if_neg h4,
              stepState]
            omega

lemma crawlLoopFuel_counts (w : World) (depth m : Nat) (now : String) :
    ∀ (f : Nat) (st : CrawlState),
      ((crawlLoopFuel w depth m now f st).articles_data.length
          + st.articles_crawled
        ≤ st.articles_data.length
          + (crawlLoopFuel w depth m now f st).articles_crawled)
      ∧ (crawlLoopFuel w depth m now f st).articles_crawled
          ≤ max st.articles_crawled m
  | 0, st => by
    simp only [crawlLoopFuel]
    exact ⟨Nat.le_refl _, Nat.le_max_left _ _⟩
  | f + 1, st => by
    have hstep := crawlStep_counts w depth m now st
    cases hs : crawlStep w depth m now st with
    | done st2 =>
      rw [hs] at hstep
      simp only [stepState] at hstep
      simp only [crawlLoopFuel, hs]
      omega
    | next st2 =>
      rw [hs] at hstep
      simp only [stepState] at hstep
      have hrec := crawlLoopFuel_counts w depth m now f st2
      simp only [crawlLoopFuel, hs]
      omega

lemma crawlLoopFuel_budget (w : World) (depth m : Nat) (now : String)
    (f : Nat) (st : CrawlState) (h1 : st.articles_crawled ≤ m) :
    (crawlLoopFuel w depth m now f st).articles_data.length
      ≤ st.articles_data.length + (m - st.articles_crawled) := by
  have hg := (crawlLoopFuel_counts w depth m now f st).1
  have hm := (crawlLoopFuel_counts w depth m now f st).2
  omega

/-! ## C1: article budget -/

/-- A state whose budget is already exceeded while its frontier is
non-empty. -/
def stFull : CrawlState :=
  { page := pageBare, articles_data := [rBareRec], visited := [],
    queue := [("x", 0)], articles_crawled := 5, enqueued := [], loaded := [] }

/-- C1: for every crawl invocation with a positive `max_articles`, the
number of records held after the crawl exceeds the records held before
it by at most `max_articles`; and the loop hard-stops as soon as the
counter reaches `max_articles`, even when the frontier is non-empty
(the loop is the identity on any such state, whatever the fuel). -/
theorem c1_crawl_budget :
    ∀ (w : World) (sp : Page) (init : List ArticleData) (depth mA : Nat)
      (now : String) (f : Nat) (st : CrawlState), 1 ≤ mA →
      ((crawl_related_articles w sp init depth mA now).2.articles_data.length
        ≤ init.length + mA)
      ∧ (mA ≤ st.articles_crawled → crawlLoopFuel w depth mA now f st = st) := by
  intro w sp init depth mA now f st hmA
  constructor
  · by_cases hpre : strStarts sp.currentUrl wikiArticleBase = true
    · have hcr : crawl_related_articles w sp init depth mA now
          = (true, crawlLoopFuel w depth mA now 2
              { page := sp, articles_data := (extract_article_data now sp init).2,
                visited := [sp.currentUrl], queue := [(sp.currentUrl, 0)],
                articles_crawled := 1, enqueued := [sp.currentUrl],
                loaded := [] }) := by
        simp [crawl_related_articles, hpre]
      rw [hcr]
      set st0 : CrawlState :=
        { page := sp, articles_data := (extract_article_data now sp init).2,
          visited := [sp.currentUrl], queue := [(sp.currentUrl, 0)],
          articles_crawled := 1, enqueued := [sp.currentUrl], loaded := [] }
      have hb := crawlLoopFuel_budget w depth mA now 2 st0 hmA
      have e1 : st0.articles_data = (extract_article_data now sp init).2 := rfl
      have e2 : st0.articles_crawled = 1 := rfl
      rw [e1, e2] at hb
      have hlen := extract_len now sp init
      show (crawlLoopFuel w depth mA now 2 st0).articles_data.length
        ≤ init.length + mA
      omega
    · have hcr : crawl_related_articles w sp init depth mA now
          = (false, { page := sp, articles_data := init, visited := [],
                      queue := [], articles_crawled := 0, enqueued := [],
                      loaded := [] }) := by
        simp [crawl_related_articles, hpre]
      rw [hcr]
      exact Nat.le_add_right _ _
  · intro h
    exact crawlLoopFuel_halt w depth mA now f st (Or.inl h)

/-- C1 witness: the bound at a concrete invocation, and the hard stop on
a concrete over-budget state with a non-empty frontier. -/
theorem c1_witness :
    ((crawl_related_articles emptyWorld pageBare [] 2 3 "d").2.articles_data.length
      ≤ ([] : List ArticleData).length + 3)
    ∧ crawlLoopFuel emptyWorld 2 3 "d" 7 stFull = stFull :=
  ⟨(c1_crawl_budget emptyWorld pageBare [] 2 3 "d" 7 stFull (by decide)).1,
   (c1_crawl_budget emptyWorld pageBare [] 2 3 "d" 7 stFull (by decide)).2
     (by decide)⟩

/-! ## Lemmas: the crawl's actual run shape -/

lemma crawlLoopFuel_start_stable (w : World) (depth mA : Nat) (now : String)
    (st : CrawlState) (s : String) (f : Nat)
    (hq : st.queue = [(s, 0)]) (hv : s ∈ st.visited) :
    crawlLoopFuel w depth mA now (f + 2) st
      = crawlLoopFuel w depth mA now 2 st := by
  by_cases hm : mA ≤ st.articles_crawled
  · rw [crawlLoopFuel_halt w depth mA now (f + 2) st (Or.inl hm),
      crawlLoopFuel_halt w depth mA now 2 st (Or.inl hm)]
  · have hstep : crawlStep w depth mA now st = .next { st with queue := [] } := by
      simp [crawlStep, hq, hm, hv]
    have hstep2 : crawlStep w depth mA now { st with queue := [] }
        = .done { st with queue := [] } :=
      crawlStep_done w depth mA now _ (Or.inr rfl)
    show crawlLoopFuel w depth mA now (f + 1 + 1) st
      = crawlLoopFuel w depth mA now (1 + 1) st
    simp only [crawlLoopFuel, hstep, hstep2]

lemma crawl_start_char (w : World) (sp : Page) (init : List ArticleData)
    (depth mA : Nat) (now : String)
    (hpre : strStarts sp.currentUrl wikiArticleBase = true) :
    ∃ q, crawl_related_articles w sp init depth mA now
      = (true, { page := sp, articles_data := (extract_article_data now sp init).2,
                 visited := [sp.currentUrl], queue := q, articles_crawled := 1,
                 enqueued := [sp.currentUrl], loaded := [] }) := by
  by_cases hm : mA ≤ 1
  · refine ⟨[(sp.currentUrl, 0)], ?_⟩
    simp [crawl_related_articles, hpre, crawlLoopFuel, crawlStep, hm]
  · refine ⟨[], ?_⟩
    simp [crawl_related_articles, hpre, crawlLoopFuel, crawlStep, hm]

/-! ## C2: each target enqueued at most once, visited set duplicate-free -/

/-- C2: over every whole crawl invocation, the ghost log of frontier
enqueues contains no target twice (in fact the seed entry is the only
enqueue ever performed: its pop is discarded as already visited, so the
link-enqueueing branch is unreachable), the visited set holds no
duplicate, and every target ever enqueued or loaded is in the visited
set on completion. -/
theorem c2_enqueue_once :
    ∀ (w : World) (sp : Page) (init : List ArticleData) (depth mA : Nat)
      (now : String),
      ((crawl_related_articles w sp init depth mA now).2.enqueued.Nodup)
      ∧ ((crawl_related_articles w sp init depth mA now).2.visited.Nodup)
      ∧ (∀ u ∈ (crawl_related_articles w sp init depth mA now).2.enqueued,
          u ∈ (crawl_related_articles w sp init depth mA now).2.visited)
      ∧ (∀ u ∈ (crawl_related_articles w sp init depth mA now).2.loaded,
          u ∈ (crawl_related_articles w sp init depth mA now).2.visited) := by
  intro w sp init depth mA now
  by_cases hpre : strStarts sp.currentUrl wikiArticleBase = true
  · obtain ⟨q, hq⟩ := crawl_start_char w sp init depth mA now hpre
    rw [hq]
    simp
  · have hcr : crawl_related_articles w sp init depth mA now
        = (false, { page := sp, articles_data := init, visited := [],
                    queue := [], articles_crawled := 0, enqueued := [],
                    loaded := [] }) := by
      simp [crawl_related_articles, hpre]
    rw [hcr]
    simp

/-! ## C5: handling of a loader failure inside the loop -/

/-- C5 amended: when the loader fails on an unvisited frontier entry (and
the budget allows continuing), the crawl continues rather than aborting
— the step yields a continuation — but the entry is NOT skipped: it is
still marked visited, it still counts against the budget (the counter
increments exactly as on success), and extraction is still attempted
against the page the driver was already showing, possibly appending a
stale duplicate record. -/
theorem c5_loader_failure_amended :
    ∀ (w : World) (depth mA : Nat) (now : String) (st : CrawlState)
      (current_url : String) (url_depth : Nat) (rest : List (String × Nat)),
      st.queue = (current_url, url_depth) :: rest →
      current_url ∉ st.visited →
      st.articles_crawled + 1 < mA →
      w.pages current_url = none →
      ((crawlStep w depth mA now st).isNext = true)
      ∧ ((stepState (crawlStep w depth mA now st)).articles_crawled
          = st.articles_crawled + 1)
      ∧ ((stepState (crawlStep w depth mA now st)).page = st.page)
      ∧ ((stepState (crawlStep w depth mA now st)).articles_data
          = (extract_article_data now st.page st.articles_data).2)
      ∧ (current_url ∈ (stepState (crawlStep w depth mA now st)).visited) := by
  intro w depth mA now st u ud rest hq hv hbudget hfail
  have h1 : ¬ (mA ≤ st.articles_crawled) := by omega
  have h3 : ¬ (mA ≤ st.articles_crawled + 1) := by omega
  have hnav : navigate_to_url w st.page u = (false, st.page) := by
    simp [navigate_to_url, hfail]
  by_cases h4 : ud < depth
  · simp [crawlStep, hq, h1, hv, h3, h4, hnav, stepState, StepRes.isNext]
  · simp [crawlStep, hq, h1, hv, h3, h4, hnav, stepState, StepRes.isNext]

/-- The page of article A, with no outbound content anchors. -/
def pageA : Page :=
  { firstHeading := some "A", currentUrl := "https://en.wikipedia.org/wiki/A",
    introParagraph := some "pa", categoryLinks := some [],
    infoboxImage := none, contentAnchors := some [] }

/-- The record extracted from `pageA` at instant "t". -/
def recA : ArticleData :=
  [("title", "A"), ("url", "https://en.wikipedia.org/wiki/A"),
   ("summary", "pa"), ("categories", ""), ("image_url", ""),
   ("date_scraped", "t")]

/-- A mid-crawl state: article A processed, the entry for B waiting in
the frontier. -/
def stNeedsB : CrawlState :=
  { page := pageA, articles_data := [recA],
    visited := ["https://en.wikipedia.org/wiki/A"],
    queue := [("https://en.wikipedia.org/wiki/B", 0)], articles_crawled := 1,
    enqueued := ["https://en.wikipedia.org/wiki/A",
                 "https://en.wikipedia.org/wiki/B"],
    loaded := [] }

/-- The state after processing B's entry while every navigation fails:
B is marked visited, the budget counter is incremented, and a duplicate
of A's record is appended from the still-displayed page. -/
def stAfterB : CrawlState :=
  { page := pageA, articles_data := [recA, recA],
    visited := ["https://en.wikipedia.org/wiki/B",
                "https://en.wikipedia.org/wiki/A"],
    queue := [], articles_crawled := 2,
    enqueued := ["https://en.wikipedia.org/wiki/A",
                 "https://en.wikipedia.org/wiki/B"],
    loaded := ["https://en.wikipedia.org/wiki/B"] }

/-- C5 counterexample: the loader fails on the frontier entry for B, yet
the entry is not skipped: the iteration increments the budget counter
from 1 to 2 and appends a (duplicate) record extracted from the page
still being displayed — contradicting "contributes no record and does
not count against the budget". -/
theorem c5_counterexample :
    emptyWorld.pages "https://en.wikipedia.org/wiki/B" = none
    ∧ crawlStep emptyWorld 2 5 "t" stNeedsB = .next stAfterB
    ∧ stAfterB.articles_crawled = stNeedsB.articles_crawled + 1
    ∧ stAfterB.articles_data = [recA, recA] := by decide

/-- C5 witness: the amended statement at the concrete failing entry. -/
theorem c5_witness :
    ((crawlStep emptyWorld 2 5 "t" stNeedsB).isNext = true)
    ∧ ((stepState (crawlStep emptyWorld 2 5 "t" stNeedsB)).articles_crawled
        = stNeedsB.articles_crawled + 1)
    ∧ ((stepState (crawlStep emptyWorld 2 5 "t" stNeedsB)).page = stNeedsB.page)
    ∧ ((stepState (crawlStep emptyWorld 2 5 "t" stNeedsB)).articles_data
        = (extract_article_data "t" stNeedsB.page stNeedsB.articles_data).2)
    ∧ ("https://en.wikipedia.org/wiki/B"
        ∈ (stepState (crawlStep emptyWorld 2 5 "t" stNeedsB)).visited) :=
  c5_loader_failure_amended emptyWorld 2 5 "t" stNeedsB
    "https://en.wikipedia.org/wiki/B" 0 [] rfl (by decide) (by decide) rfl
